import Mathlib

/-!
Shallow embedding of the binlog/Avro comparator (Go sources: the comparator
program `src/unnamed/part_000` and the normalizer `src/json_parser.go`).

Modelling conventions:
* Go `int64` values (log positions, epoch timestamps) are modelled as `Int`;
  overflow is never at issue in the properties below except where noted.
* Instants are modelled as integer nanoseconds since the Unix epoch.
  Go's `time.Parse` is a library call; the engine is parametrised by two
  parse oracles `parseNano, parseSec : String → Option Int` standing for
  `time.Parse(time.RFC3339Nano, ·)` and `time.Parse(time.RFC3339, ·)`.
  `time.Time.Sub` saturates at the `int64` Duration bounds and `Abs` maps
  the minimum duration to the maximum, so the Boolean outcome of
  `avroTime.Sub(binlogTime).Abs() > 100ms` agrees with the unbounded-`Int`
  comparison modelled here for every input.
* `time.Time`'s zero value (January 1, year 1, 00:00:00 UTC) is the constant
  `goZeroTimeUnixNano` below.
* Go maps are modelled as association lists with replace-on-insert
  (`mapInsert` / `mapFind`), matching Go's last-write-wins assignment;
  the `map[BinlogKey]bool` set of matched keys is a duplicate-free list.
* stderr warnings and stdout findings are modelled as explicit event lists.
-/

/-- Helper for `hasSuffixGo`: Boolean list-prefix test on characters. -/
def listPrefixOf : List Char → List Char → Bool
  | [], _ => true
  | _ :: _, [] => false
  | a :: as, b :: bs => a == b && listPrefixOf as bs

/-- Go `strings.HasSuffix(s, suffix)`, modelled on character lists. -/
def hasSuffixGo (s suffix : String) : Bool :=
  listPrefixOf suffix.toList.reverse s.toList.reverse

/-- ASCII uppercasing of one character (the inputs compared by the program
are ASCII, where Go's Unicode `strings.ToUpper` agrees with this). -/
def charToUpper (c : Char) : Char :=
  if 97 ≤ c.toNat && c.toNat ≤ 122 then Char.ofNat (c.toNat - 32) else c

/-- Go `strings.ToUpper` restricted to ASCII. -/
def toUpperGo (s : String) : String :=
  String.mk (s.toList.map charToUpper)

/-- `BinlogEvent` from the comparator: the relevant fields of one normalized
binlog event (JSON tags used as field names).  Defaults are Go's zero
values, as left by `json.Unmarshal` for absent fields. -/
structure BinlogEvent where
  event_type : String := ""
  timestamp : String := ""
  immediate_commmit_timestamp : String := ""
  log_position : Int := 0
  table : String := ""
  schema : String := ""
  binlog_file : String := ""
  gtid_next : String := ""
deriving DecidableEq, Repr

/-- Avro union wrapper `{"string": ...}` (struct `AvroString`). -/
structure AvroString where
  string : String := ""
deriving DecidableEq, Repr

/-- Avro union wrapper `{"long": ...}` (struct `AvroLong`). -/
structure AvroLong where
  long : Int := 0
deriving DecidableEq, Repr

/-- Avro union wrapper `{"int": ...}` (struct `AvroInt`). -/
structure AvroInt where
  int : Int := 0
deriving DecidableEq, Repr

/-- Avro union wrapper `{"boolean": ...}` (struct `AvroBoolean`). -/
structure AvroBoolean where
  boolean : Bool := false
deriving DecidableEq, Repr

/-- The nested `source_metadata` block of an `AvroRecord`. -/
structure AvroSourceMetadata where
  database : String := ""
  table : String := ""
  change_type : AvroString := {}
  gtid : AvroString := {}
  datastream_master_server_uuid : AvroString := {}
  datastream_master_server_id : AvroLong := {}
  binlog_file : AvroString := {}
  binlog_position : AvroLong := {}
  is_deleted : AvroBoolean := {}
  primary_keys : List String := []
deriving DecidableEq, Repr

/-- The `payload` block of an `AvroRecord` (sample order schema; never read
by the comparison logic). -/
structure AvroPayload where
  order_id : AvroInt := {}
  customer_name : AvroString := {}
  product_name : AvroString := {}
  quantity : AvroInt := {}
  order_timestamp : AvroLong := {}
deriving DecidableEq, Repr

/-- `AvroRecord`: one line of the Avro JSON export. -/
structure AvroRecord where
  source_timestamp : Int := 0
  source_metadata : AvroSourceMetadata := {}
  payload : AvroPayload := {}
deriving DecidableEq, Repr

/-- `BinlogKey`: the composite join key (binlog file, log position). -/
structure BinlogKey where
  binlog_file : String
  binlog_position : Int
deriving DecidableEq, Repr

/-- Association-list model of the Go map `map[BinlogKey]BinlogEvent`:
insert replaces the binding of an existing key (last write wins). -/
def mapInsert (m : List (BinlogKey × BinlogEvent)) (k : BinlogKey)
    (v : BinlogEvent) : List (BinlogKey × BinlogEvent) :=
  match m with
  | [] => [(k, v)]
  | (k', v') :: rest =>
    if k' = k then (k, v) :: rest else (k', v') :: mapInsert rest k v

/-- Lookup in the association-list model of the Go map. -/
def mapFind (m : List (BinlogKey × BinlogEvent)) (k : BinlogKey) :
    Option BinlogEvent :=
  match m with
  | [] => none
  | (k', v') :: rest => if k' = k then some v' else mapFind rest k

/-- Set-model of `map[BinlogKey]bool`: insert a key if not already present. -/
def setInsert (s : List BinlogKey) (k : BinlogKey) : List BinlogKey :=
  if s.contains k then s else s ++ [k]

/-- Unix nanoseconds of Go's zero `time.Time`
(January 1, year 1, 00:00:00 UTC; −62135596800 Unix seconds). -/
def goZeroTimeUnixNano : Int := -62135596800000000000

/-- Lines 231–238 of the comparator: infer a change type from the binlog
event type by suffix matching.  Falls through to `""` when no branch
matches (then the change-type check is skipped). -/
def inferredBinlogChangeType (eventType : String) : String :=
  if hasSuffixGo eventType "WriteRowsEventV2" || hasSuffixGo eventType "WriteRowsV1" then
    "INSERT"
  else if hasSuffixGo eventType "UpdateRowsEventV2" || hasSuffixGo eventType "UpdateRowsV1" then
    "UPDATE"
  else if hasSuffixGo eventType "DeleteRowsV2" || hasSuffixGo eventType "DeleteRowsV1" then
    "DELETE"
  else
    ""

/-- Line 216 of the comparator: `avroTime.Sub(binlogTime).Abs() > tolerance`
with `avroTime = time.UnixMilli(source_timestamp)` and a tolerance of
100 ms (100 000 000 ns). -/
def tsMismatchCheck (avroSourceTimestampMs binlogTimeNs : Int) : Bool :=
  100000000 < (avroSourceTimestampMs * 1000000 - binlogTimeNs).natAbs

/-- Lines 197–204 of the comparator: obtain `binlogTime`.  Prefers the
non-empty `immediate_commmit_timestamp` (parsed as RFC3339Nano), else a
non-empty `timestamp` (parsed as RFC3339).  `.error ()` models
`errParseTime != nil`.  When both fields are empty no parse is attempted
and `binlogTime` keeps Go's zero value with a nil error. -/
def parseBinlogTime (parseNano parseSec : String → Option Int)
    (evt : BinlogEvent) : Except Unit Int :=
  if evt.immediate_commmit_timestamp ≠ "" then
    match parseNano evt.immediate_commmit_timestamp with
    | some t => .ok t
    | none => .error ()
  else if evt.timestamp ≠ "" then
    match parseSec evt.timestamp with
    | some t => .ok t
    | none => .error ()
  else
    .ok goZeroTimeUnixNano

/-- Outcome of the per-matched-pair consistency checks (lines 197–246):
which findings were printed and how much the `mismatches` counter grew. -/
structure PairCheckResult where
  parseError : Bool
  tsMismatch : Bool
  gtidMismatch : Bool
  changeTypeMismatch : Bool
  mismatchesDelta : Nat
deriving DecidableEq, Repr

/-- Lines 197–246 of the comparator: the consistency checks run on one
matched (AvroRecord, BinlogEvent) pair.  On a timestamp parse error the
mismatch counter is incremented and the remaining checks are skipped
(`continue`).  GTID and change-type mismatches are printed but do not
touch the counter (the increments are commented out in the source). -/
def checkMatchedPair (parseNano parseSec : String → Option Int)
    (rec : AvroRecord) (evt : BinlogEvent) : PairCheckResult :=
  match parseBinlogTime parseNano parseSec evt with
  | .error () =>
    { parseError := true, tsMismatch := false, gtidMismatch := false,
      changeTypeMismatch := false, mismatchesDelta := 1 }
  | .ok binlogTime =>
    let ts := tsMismatchCheck rec.source_timestamp binlogTime
    let g := rec.source_metadata.gtid.string ≠ "" ∧ evt.gtid_next ≠ "" ∧
      rec.source_metadata.gtid.string ≠ evt.gtid_next
    let inferred := inferredBinlogChangeType evt.event_type
    let ct := rec.source_metadata.change_type.string ≠ "" ∧ inferred ≠ "" ∧
      toUpperGo rec.source_metadata.change_type.string ≠ toUpperGo inferred
    { parseError := false, tsMismatch := ts, gtidMismatch := decide g,
      changeTypeMismatch := decide ct,
      mismatchesDelta := if ts then 1 else 0 }

/-- One line of the binlog metadata input, as seen by `loadBinlogData`
after `json.Unmarshal` into `map[string]interface\x7b\x7d`:
* `malformed` — the line is not valid JSON (first unmarshal fails);
* `missingEventType` — valid JSON whose `event_type` is absent or not a
  string;
* `unmarshalError et` — `event_type` is the string `et`, but re-marshalling
  the map and unmarshalling into `BinlogEvent` fails;
* `parsed e` — the line yields the struct `e` (whose `event_type` field
  equals the map's `event_type` entry, since both come from the same JSON).
-/
inductive BinlogLine where
  | malformed
  | missingEventType
  | unmarshalError (event_type : String)
  | parsed (e : BinlogEvent)
deriving DecidableEq, Repr

/-- stderr diagnostics of `loadBinlogData` (by input line number). -/
inductive LoadDiag where
  | malformedLine (n : Nat)
  | unmarshalErrorLine (n : Nat)
  | missingFileOrPos (n : Nat)
deriving DecidableEq, Repr

/-- State threaded through `loadBinlogData`'s scan loop. -/
structure LoadState where
  lineNum : Nat
  binlogEvents : List (BinlogKey × BinlogEvent)
  diags : List LoadDiag
deriving DecidableEq, Repr

/-- Line 124 of the comparator: is the event type relevant for indexing? -/
def isRelevantEventType (eventType : String) : Bool :=
  hasSuffixGo eventType "RowsEventV2" || eventType == "XID"

/-- One iteration of `loadBinlogData`'s scan loop (lines 110–148).  The
warning for a missing `event_type` is commented out in the source, so
that case is skipped silently; irrelevant event types are likewise
skipped without a diagnostic. -/
def loadStep (st : LoadState) (l : BinlogLine) : LoadState :=
  let n := st.lineNum + 1
  match l with
  | .malformed =>
    { st with lineNum := n, diags := st.diags ++ [.malformedLine n] }
  | .missingEventType =>
    { st with lineNum := n }
  | .unmarshalError et =>
    if isRelevantEventType et then
      { st with lineNum := n, diags := st.diags ++ [.unmarshalErrorLine n] }
    else
      { st with lineNum := n }
  | .parsed e =>
    if isRelevantEventType e.event_type then
      if e.binlog_file == "" || e.log_position == 0 then
        { st with lineNum := n, diags := st.diags ++ [.missingFileOrPos n] }
      else
        { st with
          lineNum := n,
          binlogEvents := mapInsert st.binlogEvents
            ⟨e.binlog_file, e.log_position⟩ e }
    else
      { st with lineNum := n }

/-- `loadBinlogData` (lines 101–151): fold the scan loop over the input
lines, starting from an empty index. -/
def loadBinlogData (ls : List BinlogLine) : LoadState :=
  ls.foldl loadStep ⟨0, [], []⟩

/-- The Record Index invariant: every indexed entry is a relevant event
with a non-empty file, a non-zero position, and is stored under its own
composite key. -/
def indexedOk (st : LoadState) : Prop :=
  ∀ k v, mapFind st.binlogEvents k = some v →
    isRelevantEventType v.event_type = true ∧ v.binlog_file ≠ "" ∧
    v.log_position ≠ 0 ∧ k = ⟨v.binlog_file, v.log_position⟩

/-- One line of the Avro input, as seen by `compareAvroWithBinlog` after
`json.Unmarshal` into `AvroRecord`. -/
inductive AvroLine where
  | malformed
  | parsed (r : AvroRecord)
deriving DecidableEq, Repr

/-- Diagnostics (stderr warnings) and findings (stdout lines) emitted by
`compareAvroWithBinlog`'s main loop, in emission order. -/
inductive CompareEvent where
  | malformedWarning (n : Nat)
  | skipMissingKeyWarning (n : Nat)
  | avroOnlyFinding (n : Nat) (k : BinlogKey)
  | tsParseError (n : Nat) (k : BinlogKey)
  | tsMismatchFinding (n : Nat) (k : BinlogKey)
  | gtidMismatchFinding (n : Nat) (k : BinlogKey)
  | changeTypeMismatchFinding (n : Nat) (k : BinlogKey)
deriving DecidableEq, Repr

/-- State threaded through `compareAvroWithBinlog`'s main loop
(lines 161–247). -/
structure CompareState where
  lineNum : Nat
  «matches» : Nat
  mismatches : Nat
  avroOnly : Nat
  binlogMatchedKeys : List BinlogKey
  events : List CompareEvent
deriving DecidableEq, Repr

/-- One iteration of `compareAvroWithBinlog`'s main loop (lines 168–247):
skip malformed lines and records without a join key (with warnings),
count index misses as Avro-only, and on a hit run `checkMatchedPair`,
emitting its findings in source order. -/
def compareStep (parseNano parseSec : String → Option Int)
    (idx : List (BinlogKey × BinlogEvent)) (st : CompareState)
    (l : AvroLine) : CompareState :=
  let n := st.lineNum + 1
  match l with
  | .malformed =>
    { st with lineNum := n, events := st.events ++ [.malformedWarning n] }
  | .parsed r =>
    if r.source_metadata.binlog_file.string == "" ||
        r.source_metadata.binlog_position.long == 0 then
      { st with
        lineNum := n,
        events := st.events ++ [.skipMissingKeyWarning n] }
    else
      let key : BinlogKey :=
        ⟨r.source_metadata.binlog_file.string,
          r.source_metadata.binlog_position.long⟩
      match mapFind idx key with
      | none =>
        { st with
          lineNum := n,
          avroOnly := st.avroOnly + 1,
          events := st.events ++ [.avroOnlyFinding n key] }
      | some evt =>
        let res := checkMatchedPair parseNano parseSec r evt
        { lineNum := n,
          «matches» := st.«matches» + 1,
          mismatches := st.mismatches + res.mismatchesDelta,
          avroOnly := st.avroOnly,
          binlogMatchedKeys := setInsert st.binlogMatchedKeys key,
          events := st.events ++
            (if res.parseError then [.tsParseError n key]
             else
               (if res.tsMismatch then [.tsMismatchFinding n key] else []) ++
               (if res.gtidMismatch then [.gtidMismatchFinding n key] else []) ++
               (if res.changeTypeMismatch then
                 [.changeTypeMismatchFinding n key] else [])) }

/-- The main loop of `compareAvroWithBinlog` over the whole Avro input. -/
def compareAvroLoop (parseNano parseSec : String → Option Int)
    (idx : List (BinlogKey × BinlogEvent)) (ls : List AvroLine) :
    CompareState :=
  ls.foldl (compareStep parseNano parseSec idx) ⟨0, 0, 0, 0, [], []⟩

/-- Lines 258–263 of the comparator: the DML test applied to unmatched
indexed events. -/
def isDMLEventType (eventType : String) : Bool :=
  hasSuffixGo eventType "WriteRowsEventV2" ||
  hasSuffixGo eventType "UpdateRowsEventV2" ||
  hasSuffixGo eventType "DeleteRowsEventV2" ||
  hasSuffixGo eventType "WriteRowsEventV1" ||
  hasSuffixGo eventType "UpdateRowsV1" ||
  hasSuffixGo eventType "DeleteRowsV1"

/-- Lines 254–274 of the comparator: count indexed DML events whose key
was never matched by any Avro record. -/
def countBinlogOnly (idx : List (BinlogKey × BinlogEvent))
    (matched : List BinlogKey) : Nat :=
  (idx.filter (fun kv =>
    !(matched.contains kv.1) && isDMLEventType kv.2.event_type)).length

/-- The final summary block printed at lines 279–290. -/
structure Summary where
  totalProcessed : Nat
  matched : Nat
  mismatched : Nat
  avroOnly : Nat
  binlogOnly : Nat
  conclusion : String
deriving DecidableEq, Repr

/-- The consistent-verdict line (line 287 of the comparator). -/
def consistentMsg : String :=
  "CONCLUSION: All Avro records have matching binlog events, and timestamps/metadata are consistent."

/-- The discrepancy-verdict line (line 289 of the comparator). -/
def discrepancyMsg : String :=
  "CONCLUSION: WARNING - There were discrepancies found during comparison."

/-- Lines 254–290 of the comparator: run the main loop, count unmatched
binlog DML events, and emit the summary with its binary verdict.
`Total Avro Records Processed` is printed from `lineNum`, the raw count
of scanned lines. -/
def finalSummary (parseNano parseSec : String → Option Int)
    (idx : List (BinlogKey × BinlogEvent)) (ls : List AvroLine) : Summary :=
  let s := compareAvroLoop parseNano parseSec idx ls
  let bOnly := countBinlogOnly idx s.binlogMatchedKeys
  { totalProcessed := s.lineNum,
    matched := s.«matches»,
    mismatched := s.mismatches,
    avroOnly := s.avroOnly,
    binlogOnly := bOnly,
    conclusion :=
      if s.mismatches == 0 && s.avroOnly == 0 && bOnly == 0 then
        consistentMsg
      else
        discrepancyMsg }

/-- The decimal digit character for `n % 10`. -/
def decDigitChar (n : Nat) : Char :=
  match n % 10 with
  | 0 => '0' | 1 => '1' | 2 => '2' | 3 => '3' | 4 => '4'
  | 5 => '5' | 6 => '6' | 7 => '7' | 8 => '8' | _ => '9'

/-- Numeric value of a decimal digit character. -/
def digitVal (c : Char) : Nat := c.toNat - 48

/-- Is `c` an ASCII decimal digit? -/
def isDecDigit (c : Char) : Bool := 48 ≤ c.toNat && c.toNat ≤ 57

/-- Two-digit zero-padded decimal rendering (for `n < 100`). -/
def pad2 (n : Nat) : List Char := [decDigitChar (n / 10), decDigitChar n]

/-- Four-digit zero-padded decimal rendering (for `n < 10000`). -/
def pad4 (n : Nat) : List Char :=
  [decDigitChar (n / 1000), decDigitChar (n / 100), decDigitChar (n / 10),
    decDigitChar n]

/-- A wall-clock instant at second precision, in UTC (the only location the
normalizer produces: `time.Parse` with a zone-free layout yields UTC). -/
structure DateTime6 where
  year : Nat
  month : Nat
  day : Nat
  hour : Nat
  minute : Nat
  second : Nat
deriving DecidableEq, Repr

/-- Go's leap-year rule (`time.isLeap`). -/
def isLeapYear (y : Nat) : Bool :=
  y % 4 == 0 && (y % 100 != 0 || y % 400 == 0)

/-- Days in a month, Go's `daysIn`. -/
def daysInMonth (year month : Nat) : Nat :=
  if month == 2 then (if isLeapYear year then 29 else 28)
  else if month == 4 || month == 6 || month == 9 || month == 11 then 30
  else 31

/-- The range validation `time.Parse` applies to the parsed components
(month, day, hour, minute, second; the 4-digit year needs no check). -/
def validDateTime (d : DateTime6) : Bool :=
  1 ≤ d.month && d.month ≤ 12 && 1 ≤ d.day &&
  d.day ≤ daysInMonth d.year d.month &&
  d.hour < 24 && d.minute < 60 && d.second < 60

/-- `time.Parse("2006-01-02 15:04:05", value)` from the normalizer's `Date`
case: a fixed-width 19-character layout, all components decimal digits,
with Go's component range validation; no zone, hence UTC. -/
def parseGoDateTime (s : String) : Option DateTime6 :=
  match s.toList with
  | [y3, y2, y1, y0, c1, m1, m0, c2, d1, d0, c3,
      h1, h0, c4, mi1, mi0, c5, s1, s0] =>
    if c1 = '-' ∧ c2 = '-' ∧ c3 = ' ' ∧ c4 = ':' ∧ c5 = ':' ∧
        [y3, y2, y1, y0, m1, m0, d1, d0, h1, h0, mi1, mi0, s1, s0].all
          isDecDigit = true then
      let dt : DateTime6 :=
        { year := digitVal y3 * 1000 + digitVal y2 * 100 +
            digitVal y1 * 10 + digitVal y0,
          month := digitVal m1 * 10 + digitVal m0,
          day := digitVal d1 * 10 + digitVal d0,
          hour := digitVal h1 * 10 + digitVal h0,
          minute := digitVal mi1 * 10 + digitVal mi0,
          second := digitVal s1 * 10 + digitVal s0 }
      if validDateTime dt then some dt else none
    else none
  | _ => none

/-- `t.Format(time.RFC3339)` for a second-precision UTC instant, as emitted
by the normalizer's `Date` case: `YYYY-MM-DDTHH:MM:SSZ`. -/
def formatRFC3339sec (d : DateTime6) : String :=
  String.mk (pad4 d.year ++ '-' :: pad2 d.month ++ '-' :: pad2 d.day ++
    'T' :: pad2 d.hour ++ ':' :: pad2 d.minute ++ ':' :: pad2 d.second ++
    ['Z'])

/-- `time.Parse(time.RFC3339, s)` restricted to the UTC `Z`-suffixed,
fraction-free strings — exactly the image of `formatRFC3339sec`, which is
the only shape the normalizer emits under `timestamp`.  (Go's full RFC3339
parser additionally accepts numeric offsets and fractional seconds; those
shapes never arise in this round trip.) -/
def parseRFC3339Z (s : String) : Option DateTime6 :=
  match s.toList with
  | [y3, y2, y1, y0, c1, m1, m0, c2, d1, d0, c3,
      h1, h0, c4, mi1, mi0, c5, s1, s0, c6] =>
    if c1 = '-' ∧ c2 = '-' ∧ c3 = 'T' ∧ c4 = ':' ∧ c5 = ':' ∧ c6 = 'Z' ∧
        [y3, y2, y1, y0, m1, m0, d1, d0, h1, h0, mi1, mi0, s1, s0].all
          isDecDigit = true then
      let dt : DateTime6 :=
        { year := digitVal y3 * 1000 + digitVal y2 * 100 +
            digitVal y1 * 10 + digitVal y0,
          month := digitVal m1 * 10 + digitVal m0,
          day := digitVal d1 * 10 + digitVal d0,
          hour := digitVal h1 * 10 + digitVal h0,
          minute := digitVal mi1 * 10 + digitVal mi0,
          second := digitVal s1 * 10 + digitVal s0 }
      if validDateTime dt then some dt else none
    else none
  | _ => none

/-- `strconv.ParseInt(value, 10, 64)`: optional sign, non-empty digit
string, result range-checked against `int64`. -/
def parseIntGo (s : String) : Option Int :=
  match s.toList with
  | [] => none
  | c :: rest =>
    let (neg, ds) :=
      if c = '-' then (true, rest)
      else if c = '+' then (false, rest)
      else (false, c :: rest)
    if ds.isEmpty then none
    else if ds.all isDecDigit then
      let m : Nat := ds.foldl (fun acc d => acc * 10 + digitVal d) 0
      let v : Int := if neg then -(m : Int) else (m : Int)
      if -(2 ^ 63) ≤ v ∧ v ≤ 2 ^ 63 - 1 then some v else none
    else none

/-- Field values stored into the normalizer's current event map. -/
inductive FieldValue where
  | str (s : String)
  | int (n : Int)
deriving DecidableEq, Repr

/-- Line 77 of the normalizer:
`strings.ToLower(strings.ReplaceAll(key, " ", "_"))` (ASCII keys; the
single-character replacement is a character map). -/
def normalizedKey (key : String) : String :=
  String.mk ((key.toList.map (fun c => if c = ' ' then '_' else c)).map
    (fun c => if 65 ≤ c.toNat && c.toNat ≤ 90 then Char.ofNat (c.toNat + 32)
      else c))

/-- The normalizer's `Date` case (lines 80–87): on success store the
RFC3339 rendering under `timestamp` with no warning; on failure store the
raw value under the normalized key and warn (the Boolean). -/
def processDate (value : String) : (String × FieldValue) × Bool :=
  match parseGoDateTime value with
  | some d => (("timestamp", .str (formatRFC3339sec d)), false)
  | none => ((normalizedKey "Date", .str value), true)

/-- The normalizer's `Log position` case (lines 88–94): on success store
the integer under `log_position` with no warning; on failure store the raw
value under the normalized key and warn. -/
def processLogPosition (value : String) : (String × FieldValue) × Bool :=
  match parseIntGo value with
  | some n => (("log_position", .int n), false)
  | none => ((normalizedKey "Log position", .str value), true)

/-! ### Helper lemmas -/

theorem digitVal_decDigitChar (n : Nat) : digitVal (decDigitChar n) = n % 10 := by
  have h : n % 10 < 10 := Nat.mod_lt _ (by decide)
  unfold decDigitChar
  generalize hm : n % 10 = m at h ⊢
  interval_cases m <;> rfl

theorem isDecDigit_decDigitChar (n : Nat) : isDecDigit (decDigitChar n) = true := by
  have h : n % 10 < 10 := Nat.mod_lt _ (by decide)
  unfold decDigitChar
  generalize hm : n % 10 = m at h ⊢
  interval_cases m <;> rfl

theorem read2 (n : Nat) (h : n < 100) :
    digitVal (decDigitChar (n / 10)) * 10 + digitVal (decDigitChar n) = n := by
  rw [digitVal_decDigitChar, digitVal_decDigitChar]
  have h1 : n % 100 = n % 10 + 10 * (n / 10 % 10) := Nat.mod_mul (a := 10) (b := 10)
  have h2 : n % 100 = n := Nat.mod_eq_of_lt h
  omega

theorem read4 (n : Nat) (h : n < 10000) :
    digitVal (decDigitChar (n / 1000)) * 1000 + digitVal (decDigitChar (n / 100)) * 100 +
      digitVal (decDigitChar (n / 10)) * 10 + digitVal (decDigitChar n) = n := by
  rw [digitVal_decDigitChar, digitVal_decDigitChar, digitVal_decDigitChar,
    digitVal_decDigitChar]
  have h1 : n % 100 = n % 10 + 10 * (n / 10 % 10) := Nat.mod_mul (a := 10) (b := 10)
  have h2 : n % 1000 = n % 100 + 100 * (n / 100 % 10) := Nat.mod_mul (a := 100) (b := 10)
  have h3 : n % 10000 = n % 1000 + 1000 * (n / 1000 % 10) :=
    Nat.mod_mul (a := 1000) (b := 10)
  have h4 : n % 10000 = n := Nat.mod_eq_of_lt h
  omega

theorem daysInMonth_le_31 (y m : Nat) : daysInMonth y m ≤ 31 := by
  unfold daysInMonth
  split
  · split <;> omega
  · split <;> omega

theorem validDateTime_bounds (d : DateTime6) (hv : validDateTime d = true) :
    d.month < 100 ∧ d.day < 100 ∧ d.hour < 100 ∧ d.minute < 100 ∧ d.second < 100 := by
  have h31 := daysInMonth_le_31 d.year d.month
  simp only [validDateTime, Bool.and_eq_true, decide_eq_true_eq] at hv
  omega

theorem mapFind_mapInsert (m : List (BinlogKey × BinlogEvent)) (k q : BinlogKey)
    (v : BinlogEvent) :
    mapFind (mapInsert m k v) q = if q = k then some v else mapFind m q := by
  induction m with
  | nil =>
    simp only [mapInsert, mapFind]
    by_cases h : q = k
    · subst h; simp
    · rw [if_neg (fun hh => h hh.symm), if_neg h]
  | cons hd tl ih =>
    obtain ⟨k', v'⟩ := hd
    simp only [mapInsert]
    by_cases hk : k' = k
    · subst hk
      rw [if_pos rfl]
      simp only [mapFind]
      by_cases hq : q = k'
      · subst hq; simp
      · rw [if_neg (fun hh => hq hh.symm), if_neg hq,
          if_neg (fun hh => hq hh.symm)]
    · rw [if_neg hk]
      simp only [mapFind]
      by_cases hq : k' = q
      · subst hq
        rw [if_pos rfl, if_neg (fun hh : k' = k => hk hh), if_pos rfl]
      · rw [if_neg hq, if_neg hq, ih]

theorem digitVal_le_nine (c : Char) (h : isDecDigit c = true) : digitVal c ≤ 9 := by
  simp only [isDecDigit, Bool.and_eq_true, decide_eq_true_eq] at h
  simp only [digitVal]
  omega

theorem parseRFC3339Z_format (d : DateTime6) (hy : d.year < 10000)
    (hv : validDateTime d = true) :
    parseRFC3339Z (formatRFC3339sec d) = some d := by
  obtain ⟨hm, hd, hh, hmi, hs⟩ := validDateTime_bounds d hv
  have hY := read4 d.year hy
  have hM := read2 d.month hm
  have hD := read2 d.day hd
  have hH := read2 d.hour hh
  have hMi := read2 d.minute hmi
  have hS := read2 d.second hs
  simp only [formatRFC3339sec, pad4, pad2, List.cons_append, List.nil_append]
  simp only [parseRFC3339Z, String.toList]
  simp only [List.all_cons, List.all_nil, isDecDigit_decDigitChar, Bool.and_self,
    Bool.and_true, and_true, true_and]
  simp only [if_true, hY, hM, hD, hH, hMi, hS]
  show (if validDateTime d = true then some d else none) = some d
  rw [if_pos hv]

theorem parseGoDateTime_bounds (s : String) (d : DateTime6)
    (h : parseGoDateTime s = some d) :
    d.year < 10000 ∧ validDateTime d = true := by
  unfold parseGoDateTime at h
  split at h
  · rename_i y3 y2 y1 y0 c1 m1 m0 c2 d1 d0 c3 h1 h0 c4 mi1 mi0 c5 s1 s0 heq
    split at h
    · rename_i hc
      obtain ⟨-, -, -, -, -, hall⟩ := hc
      simp only [List.all_cons, List.all_nil, Bool.and_eq_true] at hall
      obtain ⟨hy3, hy2, hy1, hy0, -⟩ := hall
      dsimp only at h
      split at h
      · rename_i hvd
        injection h with h
        subst h
        refine ⟨?_, hvd⟩
        have b3 := digitVal_le_nine _ hy3
        have b2 := digitVal_le_nine _ hy2
        have b1 := digitVal_le_nine _ hy1
        have b0 := digitVal_le_nine _ hy0
        simp only
        omega
      · exact absurd h (by simp)
    · exact absurd h (by simp)
  · exact absurd h (by simp)


theorem loadStep_indexedOk (st : LoadState) (l : BinlogLine)
    (h : indexedOk st) : indexedOk (loadStep st l) := by
  cases l with
  | malformed => exact h
  | missingEventType => exact h
  | unmarshalError et =>
    intro k v
    simp only [loadStep]
    split <;> exact h k v
  | parsed e =>
    intro k v
    simp only [loadStep]
    by_cases hrel : isRelevantEventType e.event_type = true
    · rw [if_pos hrel]
      by_cases hmiss : (e.binlog_file == "" || e.log_position == 0) = true
      · rw [if_pos hmiss]; exact h k v
      · rw [if_neg hmiss]
        simp only [Bool.or_eq_true, beq_iff_eq, not_or] at hmiss
        obtain ⟨hf, hp⟩ := hmiss
        intro hfind
        rw [mapFind_mapInsert] at hfind
        by_cases hk : k = (⟨e.binlog_file, e.log_position⟩ : BinlogKey)
        · rw [if_pos hk] at hfind
          injection hfind with hfind
          subst hfind
          exact ⟨hrel, hf, hp, hk⟩
        · rw [if_neg hk] at hfind
          exact h k v hfind
    · rw [if_neg hrel]; exact h k v

theorem loadFold_indexedOk (ls : List BinlogLine) (st : LoadState)
    (h : indexedOk st) : indexedOk (List.foldl loadStep st ls) := by
  induction ls generalizing st with
  | nil => exact h
  | cons hd tl ih => exact ih _ (loadStep_indexedOk st hd h)

theorem compareStep_core (pn ps : String → Option Int)
    (idx : List (BinlogKey × BinlogEvent)) (s t : CompareState) (l : AvroLine)
    (h1 : s.«matches» = t.«matches») (h2 : s.mismatches = t.mismatches)
    (h3 : s.avroOnly = t.avroOnly)
    (h4 : s.binlogMatchedKeys = t.binlogMatchedKeys) :
    (compareStep pn ps idx s l).«matches» = (compareStep pn ps idx t l).«matches» ∧
    (compareStep pn ps idx s l).mismatches = (compareStep pn ps idx t l).mismatches ∧
    (compareStep pn ps idx s l).avroOnly = (compareStep pn ps idx t l).avroOnly ∧
    (compareStep pn ps idx s l).binlogMatchedKeys =
      (compareStep pn ps idx t l).binlogMatchedKeys := by
  cases l with
  | malformed => exact ⟨h1, h2, h3, h4⟩
  | parsed r =>
    simp only [compareStep]
    by_cases hskip : (r.source_metadata.binlog_file.string == "" ||
        r.source_metadata.binlog_position.long == 0) = true
    · simp only [if_pos hskip]
      exact ⟨h1, h2, h3, h4⟩
    · simp only [if_neg hskip]
      rcases hfind : mapFind idx ⟨r.source_metadata.binlog_file.string,
          r.source_metadata.binlog_position.long⟩ with _ | evt
      · simp only [h1, h2, h3, h4, and_self]
      · simp only [h1, h2, h3, h4, and_self]

theorem compareFold_core (pn ps : String → Option Int)
    (idx : List (BinlogKey × BinlogEvent)) (ls : List AvroLine)
    (s t : CompareState)
    (h1 : s.«matches» = t.«matches») (h2 : s.mismatches = t.mismatches)
    (h3 : s.avroOnly = t.avroOnly)
    (h4 : s.binlogMatchedKeys = t.binlogMatchedKeys) :
    (List.foldl (compareStep pn ps idx) s ls).«matches» =
      (List.foldl (compareStep pn ps idx) t ls).«matches» ∧
    (List.foldl (compareStep pn ps idx) s ls).mismatches =
      (List.foldl (compareStep pn ps idx) t ls).mismatches ∧
    (List.foldl (compareStep pn ps idx) s ls).avroOnly =
      (List.foldl (compareStep pn ps idx) t ls).avroOnly ∧
    (List.foldl (compareStep pn ps idx) s ls).binlogMatchedKeys =
      (List.foldl (compareStep pn ps idx) t ls).binlogMatchedKeys := by
  induction ls generalizing s t with
  | nil => exact ⟨h1, h2, h3, h4⟩
  | cons hd tl ih =>
    obtain ⟨g1, g2, g3, g4⟩ := compareStep_core pn ps idx s t hd h1 h2 h3 h4
    exact ih _ _ g1 g2 g3 g4

theorem compareStep_lineNum (pn ps : String → Option Int)
    (idx : List (BinlogKey × BinlogEvent)) (st : CompareState) (l : AvroLine) :
    (compareStep pn ps idx st l).lineNum = st.lineNum + 1 := by
  cases l with
  | malformed => rfl
  | parsed r =>
    simp only [compareStep]
    by_cases hskip : (r.source_metadata.binlog_file.string == "" ||
        r.source_metadata.binlog_position.long == 0) = true
    · simp only [if_pos hskip]
    · simp only [if_neg hskip]
      rcases hfind : mapFind idx ⟨r.source_metadata.binlog_file.string,
          r.source_metadata.binlog_position.long⟩ with _ | evt <;> rfl

theorem compareFold_lineNum (pn ps : String → Option Int)
    (idx : List (BinlogKey × BinlogEvent)) (ls : List AvroLine)
    (st : CompareState) :
    (List.foldl (compareStep pn ps idx) st ls).lineNum =
      st.lineNum + ls.length := by
  induction ls generalizing st with
  | nil => rfl
  | cons hd tl ih =>
    rw [List.foldl_cons, ih, compareStep_lineNum, List.length_cons]
    omega

theorem compareStep_events (pn ps : String → Option Int)
    (idx : List (BinlogKey × BinlogEvent)) (st : CompareState) (l : AvroLine) :
    ∃ tl, (compareStep pn ps idx st l).events = st.events ++ tl := by
  cases l with
  | malformed => exact ⟨_, rfl⟩
  | parsed r =>
    simp only [compareStep]
    by_cases hskip : (r.source_metadata.binlog_file.string == "" ||
        r.source_metadata.binlog_position.long == 0) = true
    · simp only [if_pos hskip]
      exact ⟨_, rfl⟩
    · simp only [if_neg hskip]
      rcases hfind : mapFind idx ⟨r.source_metadata.binlog_file.string,
          r.source_metadata.binlog_position.long⟩ with _ | evt
      · exact ⟨_, rfl⟩
      · exact ⟨_, rfl⟩

theorem compareFold_events (pn ps : String → Option Int)
    (idx : List (BinlogKey × BinlogEvent)) (ls : List AvroLine)
    (st : CompareState) :
    ∃ tl, (List.foldl (compareStep pn ps idx) st ls).events =
      st.events ++ tl := by
  induction ls generalizing st with
  | nil => exact ⟨[], (List.append_nil _).symm⟩
  | cons hd tl ih =>
    obtain ⟨u, hu⟩ := compareStep_events pn ps idx st hd
    obtain ⟨w, hw⟩ := ih (compareStep pn ps idx st hd)
    exact ⟨u ++ w, by rw [List.foldl_cons, hw, hu, List.append_assoc]⟩

theorem listPrefixOf_cons_inv (x : Char) (xs l : List Char)
    (h : listPrefixOf (x :: xs) l = true) :
    ∃ ys, l = x :: ys ∧ listPrefixOf xs ys = true := by
  cases l with
  | nil => simp [listPrefixOf] at h
  | cons y ys =>
    simp only [listPrefixOf, Bool.and_eq_true, beq_iff_eq] at h
    obtain ⟨rfl, h2⟩ := h
    exact ⟨ys, rfl, h2⟩

/-- No event type that passes the indexing filter (ends in `RowsEventV2` or
equals `XID`) can reach the `DELETE` branch of the change-type inference:
that branch tests the suffixes `DeleteRowsV2` / `DeleteRowsV1`, which are
incompatible with both filter conditions. -/
theorem relevant_no_delete (et : String)
    (hrel : isRelevantEventType et = true) :
    inferredBinlogChangeType et ≠ "DELETE" := by
  intro hdel
  unfold inferredBinlogChangeType at hdel
  split_ifs at hdel with hb1 hb2 hb3
  · exact absurd hdel (by decide)
  · exact absurd hdel (by decide)
  · simp only [isRelevantEventType, Bool.or_eq_true] at hrel
    simp only [Bool.or_eq_true] at hb3
    rcases hrel with hsuf | hxid
    · unfold hasSuffixGo at hsuf
      have e1 : ("RowsEventV2".toList.reverse) =
          ['2', 'V', 't', 'n', 'e', 'v', 'E', 's', 'w', 'o', 'R'] := rfl
      rw [e1] at hsuf
      obtain ⟨r1, hr1, hsuf⟩ := listPrefixOf_cons_inv _ _ _ hsuf
      obtain ⟨r2, hr2, hsuf⟩ := listPrefixOf_cons_inv _ _ _ hsuf
      obtain ⟨r3, hr3, hsuf⟩ := listPrefixOf_cons_inv _ _ _ hsuf
      rcases hb3 with hA | hB
      · unfold hasSuffixGo at hA
        have e2 : ("DeleteRowsV2".toList.reverse) =
            ['2', 'V', 's', 'w', 'o', 'R', 'e', 't', 'e', 'l', 'e', 'D'] := rfl
        rw [e2] at hA
        obtain ⟨q1, hq1, hA⟩ := listPrefixOf_cons_inv _ _ _ hA
        obtain ⟨q2, hq2, hA⟩ := listPrefixOf_cons_inv _ _ _ hA
        obtain ⟨q3, hq3, hA⟩ := listPrefixOf_cons_inv _ _ _ hA
        rw [hr1] at hq1
        injection hq1 with _ hq1
        subst hq1
        rw [hr2] at hq2
        injection hq2 with _ hq2
        subst hq2
        rw [hr3] at hq3
        injection hq3 with hq3
        exact absurd hq3 (by decide)
      · unfold hasSuffixGo at hB
        have e3 : ("DeleteRowsV1".toList.reverse) =
            ['1', 'V', 's', 'w', 'o', 'R', 'e', 't', 'e', 'l', 'e', 'D'] := rfl
        rw [e3] at hB
        obtain ⟨q1, hq1, hB⟩ := listPrefixOf_cons_inv _ _ _ hB
        rw [hr1] at hq1
        injection hq1 with hq1
        exact absurd hq1 (by decide)
    · have hx : et = "XID" := by simpa using hxid
      subst hx
      rcases hb3 with hA | hB
      · exact absurd hA (by decide)
      · exact absurd hB (by decide)
  · exact absurd hdel (by decide)

/-- **C1** (code bug): the change-type inference does NOT map
`DeleteRowsEventV2` to `DELETE` as the spec requires — it yields the empty
string, so the mutation-kind check is silently skipped for deletes.  The
`Write`/`Update` branches use the `...RowsEventV2` suffixes, but the
`Delete` branch tests `DeleteRowsV2`/`DeleteRowsV1`, which cannot match
any indexed event type; hence `DELETE` is never inferred for any indexed
event. -/
theorem changeType_delete_never_inferred :
    inferredBinlogChangeType "DeleteRowsEventV2" = "" ∧
    inferredBinlogChangeType "WriteRowsEventV2" = "INSERT" ∧
    inferredBinlogChangeType "UpdateRowsEventV2" = "UPDATE" ∧
    (∀ et, isRelevantEventType et = true →
      inferredBinlogChangeType et ≠ "DELETE") :=
  ⟨by decide, by decide, by decide, relevant_no_delete⟩

theorem changeType_delete_never_inferred_witness :
    isRelevantEventType "DeleteRowsEventV2" = true ∧
    inferredBinlogChangeType "DeleteRowsEventV2" ≠ "DELETE" :=
  ⟨by decide,
    changeType_delete_never_inferred.2.2.2 "DeleteRowsEventV2" (by decide)⟩

/-- **C2** (confirmed): for a matched pair whose binlog timestamp resolves
to `t`, the pair is counted as a timestamp mismatch (the mismatch counter
grows by one) exactly when the absolute difference between the record's
epoch-millisecond timestamp (converted to nanoseconds) and `t` strictly
exceeds the 100 ms tolerance; a difference of exactly 100 ms is not a
mismatch. -/
theorem timestamp_tolerance_boundary (pn ps : String → Option Int)
    (rec : AvroRecord) (evt : BinlogEvent) (t : Int)
    (h : parseBinlogTime pn ps evt = .ok t) :
    ((checkMatchedPair pn ps rec evt).tsMismatch = true ↔
      100000000 < (rec.source_timestamp * 1000000 - t).natAbs) ∧
    (checkMatchedPair pn ps rec evt).mismatchesDelta =
      (if 100000000 < (rec.source_timestamp * 1000000 - t).natAbs
        then 1 else 0) := by
  unfold checkMatchedPair
  rw [h]
  constructor
  · simp [tsMismatchCheck]
  · simp only [tsMismatchCheck]
    by_cases hlt : 100000000 < (rec.source_timestamp * 1000000 - t).natAbs
    · simp [hlt]
    · simp [hlt]

theorem timestamp_tolerance_boundary_witness :
    (checkMatchedPair (fun s => if s = "T0" then some 0 else none)
      (fun _ => none) { source_timestamp := 100 }
      { immediate_commmit_timestamp := "T0" }).mismatchesDelta = 0 ∧
    (checkMatchedPair (fun s => if s = "T0" then some (-1) else none)
      (fun _ => none) { source_timestamp := 100 }
      { immediate_commmit_timestamp := "T0" }).mismatchesDelta = 1 := by
  constructor
  · rw [(timestamp_tolerance_boundary (fun s => if s = "T0" then some 0 else none)
      (fun _ => none) { source_timestamp := 100 }
      { immediate_commmit_timestamp := "T0" } 0 rfl).2]
    decide
  · rw [(timestamp_tolerance_boundary (fun s => if s = "T0" then some (-1) else none)
      (fun _ => none) { source_timestamp := 100 }
      { immediate_commmit_timestamp := "T0" } (-1) rfl).2]
    decide

/-- **C3 counterexample**: an indexed event whose two timestamp fields are
both empty has no parseable timestamp at all (the oracles return `none`
everywhere), yet the comparator reports no error condition: the parse-error
flag is `false` and the remaining checks run — the timestamp comparison is
performed against Go's zero time (and here flags a mismatch) instead of the
claimed error path. -/
theorem both_timestamps_empty_no_error :
    parseBinlogTime (fun _ => none) (fun _ => none) {} =
      .ok goZeroTimeUnixNano ∧
    (checkMatchedPair (fun _ => none) (fun _ => none) {} {}).parseError =
      false ∧
    (checkMatchedPair (fun _ => none) (fun _ => none) {} {}).tsMismatch =
      true :=
  ⟨rfl, rfl, by decide⟩

/-- **C3** (corrected): the timestamp check prefers the event's non-empty
nanosecond-precision commit timestamp, else its non-empty second-precision
timestamp; whenever the attempted parse fails, the record is reported as a
parse-error condition distinct from a mismatch, the mismatch counter is
incremented, and the remaining checks are skipped.  But when BOTH timestamp
fields are empty no parse is attempted: no error is reported and the
comparison proceeds against Go's zero time. -/
theorem timestamp_selection_and_parse_error (pn ps : String → Option Int)
    (rec : AvroRecord) (evt : BinlogEvent) :
    (∀ t, evt.immediate_commmit_timestamp ≠ "" →
      pn evt.immediate_commmit_timestamp = some t →
      parseBinlogTime pn ps evt = .ok t) ∧
    (∀ t, evt.immediate_commmit_timestamp = "" → evt.timestamp ≠ "" →
      ps evt.timestamp = some t → parseBinlogTime pn ps evt = .ok t) ∧
    ((evt.immediate_commmit_timestamp ≠ "" ∧
        pn evt.immediate_commmit_timestamp = none) ∨
      (evt.immediate_commmit_timestamp = "" ∧ evt.timestamp ≠ "" ∧
        ps evt.timestamp = none) →
      checkMatchedPair pn ps rec evt =
        { parseError := true, tsMismatch := false, gtidMismatch := false,
          changeTypeMismatch := false, mismatchesDelta := 1 }) ∧
    (evt.immediate_commmit_timestamp = "" ∧ evt.timestamp = "" →
      parseBinlogTime pn ps evt = .ok goZeroTimeUnixNano ∧
      (checkMatchedPair pn ps rec evt).parseError = false) := by
  refine ⟨?_, ?_, ?_, ?_⟩
  · intro t h1 h2
    unfold parseBinlogTime
    rw [if_pos h1, h2]
  · intro t h1 h2 h3
    unfold parseBinlogTime
    rw [if_neg (fun hn => hn h1), if_pos h2, h3]
  · intro hfail
    unfold checkMatchedPair parseBinlogTime
    rcases hfail with ⟨h1, h2⟩ | ⟨h1, h2, h3⟩
    · rw [if_pos h1, h2]
    · rw [if_neg (fun hn => hn h1), if_pos h2, h3]
  · intro ⟨h1, h2⟩
    have hp : parseBinlogTime pn ps evt = .ok goZeroTimeUnixNano := by
      unfold parseBinlogTime
      rw [if_neg (fun hn => hn h1), if_neg (fun hn => hn h2)]
    refine ⟨hp, ?_⟩
    unfold checkMatchedPair
    rw [hp]

theorem timestamp_selection_and_parse_error_witness :
    parseBinlogTime (fun s => if s = "N1" then some 5 else none)
      (fun _ => none)
      { immediate_commmit_timestamp := "N1", timestamp := "S1" } = .ok 5 :=
  (timestamp_selection_and_parse_error
    (fun s => if s = "N1" then some 5 else none) (fun _ => none) {}
    { immediate_commmit_timestamp := "N1", timestamp := "S1" }).1 5
    (by decide) (by decide)

/-- **C4 counterexample**: a matched pair whose (non-empty) commit
timestamp fails to parse hits the `continue` of the error path, so even
though both sides carry non-empty, differing transaction identifiers, no
GTID discrepancy is reported — refuting the claim's "for every matched
pair ... exactly when". -/
theorem gtid_discrepancy_skipped_on_parse_error :
    (checkMatchedPair (fun _ => none) (fun _ => none)
      { source_metadata := { gtid := { string := "g2" } } }
      { immediate_commmit_timestamp := "bad", gtid_next := "g1" }).gtidMismatch
      = false ∧
    ("g2" : String) ≠ "" ∧ ("g1" : String) ≠ "" ∧ ("g2" : String) ≠ "g1" := by
  decide

/-- **C4** (corrected): for every matched pair whose binlog timestamp
resolves successfully (so the checks are reached), a GTID discrepancy is
reported exactly when both sides carry a non-empty identifier and they
differ under case-sensitive comparison; and the aggregate mismatch counter
grows exactly with the timestamp check — GTID and change-type
discrepancies never contribute to it. -/
theorem gtid_check_and_counting (pn ps : String → Option Int)
    (rec : AvroRecord) (evt : BinlogEvent) (t : Int)
    (h : parseBinlogTime pn ps evt = .ok t) :
    ((checkMatchedPair pn ps rec evt).gtidMismatch = true ↔
      (rec.source_metadata.gtid.string ≠ "" ∧ evt.gtid_next ≠ "" ∧
        rec.source_metadata.gtid.string ≠ evt.gtid_next)) ∧
    (checkMatchedPair pn ps rec evt).mismatchesDelta =
      (if (checkMatchedPair pn ps rec evt).tsMismatch then 1 else 0) := by
  unfold checkMatchedPair
  rw [h]
  constructor
  · simp
  · rfl

theorem gtid_check_and_counting_witness :
    (checkMatchedPair (fun s => if s = "N1" then some 0 else none)
      (fun _ => none) { source_metadata := { gtid := { string := "g2" } } }
      { immediate_commmit_timestamp := "N1", gtid_next := "g1" }).gtidMismatch
      = true :=
  ((gtid_check_and_counting (fun s => if s = "N1" then some 0 else none)
    (fun _ => none) { source_metadata := { gtid := { string := "g2" } } }
    { immediate_commmit_timestamp := "N1", gtid_next := "g1" } 0 rfl).1).mpr
    (by decide)

/-- **C5 counterexample**: an event that fails the event-type retention
condition (here `event_type = "Query"`) is not indexed but also NOT
logged — the loader emits no diagnostic for it, refuting the claim that
"an event failing any of these conditions is logged and not indexed". -/
theorem irrelevant_event_skipped_silently :
    (loadBinlogData [.parsed
      { event_type := "Query", binlog_file := "bin.000001", log_position := 5 }
      ]).binlogEvents = [] ∧
    (loadBinlogData [.parsed
      { event_type := "Query", binlog_file := "bin.000001", log_position := 5 }
      ]).diags = [] := by
  decide

/-- **C5** (corrected): every indexed entry is a relevant event
(`event_type` ends in `RowsEventV2` or equals `XID`) with non-empty
`binlog_file`, non-zero `log_position`, stored under its own composite
key; a relevant event missing `binlog_file` or with zero `log_position`
is logged and not indexed; and on a key collision the later event
replaces the earlier one (the loader is a total function — it cannot
crash).  Events with a missing or irrelevant `event_type` are skipped
silently, not logged. -/
theorem index_invariant_and_lastwrite (ls : List BinlogLine) :
    indexedOk (loadBinlogData ls) ∧
    (∀ st e, isRelevantEventType e.event_type = true →
      (e.binlog_file == "" || e.log_position == 0) = true →
      loadStep st (.parsed e) =
        { st with
          lineNum := st.lineNum + 1,
          diags := st.diags ++ [.missingFileOrPos (st.lineNum + 1)] }) ∧
    (∀ e, isRelevantEventType e.event_type = true →
      e.binlog_file ≠ "" → e.log_position ≠ 0 →
      mapFind (loadBinlogData (ls ++ [.parsed e])).binlogEvents
        ⟨e.binlog_file, e.log_position⟩ = some e) := by
  refine ⟨?_, ?_, ?_⟩
  · exact loadFold_indexedOk ls _ (fun k v h => by simp [mapFind] at h)
  · intro st e h1 h2
    simp only [loadStep]
    rw [if_pos h1, if_pos h2]
  · intro e h1 h2 h3
    unfold loadBinlogData
    rw [List.foldl_append]
    simp only [List.foldl_cons, List.foldl_nil]
    simp only [loadStep]
    rw [if_pos h1, if_neg (by simp [h2, h3])]
    simp only
    rw [mapFind_mapInsert, if_pos rfl]

theorem index_invariant_and_lastwrite_witness :
    mapFind (loadBinlogData [BinlogLine.parsed
      { event_type := "WriteRowsEventV2"
        binlog_file := "bin.000001"
        log_position := 4 }]).binlogEvents ⟨"bin.000001", 4⟩ =
      some
        { event_type := "WriteRowsEventV2"
          binlog_file := "bin.000001"
          log_position := 4 } :=
  (index_invariant_and_lastwrite []).2.2
    { event_type := "WriteRowsEventV2"
      binlog_file := "bin.000001"
      log_position := 4 } (by decide) (by decide) (by decide)

/-- **C6 counterexample**: a stream consisting of a single malformed line
yields a summary whose `Total Avro Records Processed` is 1 — `lineNum` is
incremented before the unmarshal check, so the total-records-processed
count does NOT exclude the malformed line (all other counts do). -/
theorem malformed_line_counted_in_total :
    (finalSummary (fun _ => none) (fun _ => none) [] [.malformed]
      ).totalProcessed = 1 ∧
    (finalSummary (fun _ => none) (fun _ => none) [] [.malformed]
      ).matched = 0 ∧
    (finalSummary (fun _ => none) (fun _ => none) [] [.malformed]
      ).mismatched = 0 ∧
    (finalSummary (fun _ => none) (fun _ => none) [] [.malformed]
      ).avroOnly = 0 := by
  decide

/-- **C6** (corrected): a malformed JSON line is skipped with a diagnostic
and every subsequent valid line is still processed: the matched,
mismatched, Avro-only and binlog-only counts are exactly those of the same
stream without the malformed line.  The total-records-processed count,
however, is the raw scanned-line count and INCLUDES the malformed line. -/
theorem malformed_line_skipped_but_counted (pn ps : String → Option Int)
    (idx : List (BinlogKey × BinlogEvent)) (ls₁ ls₂ : List AvroLine) :
    (finalSummary pn ps idx (ls₁ ++ .malformed :: ls₂)).totalProcessed =
      ls₁.length + 1 + ls₂.length ∧
    (finalSummary pn ps idx (ls₁ ++ .malformed :: ls₂)).matched =
      (finalSummary pn ps idx (ls₁ ++ ls₂)).matched ∧
    (finalSummary pn ps idx (ls₁ ++ .malformed :: ls₂)).mismatched =
      (finalSummary pn ps idx (ls₁ ++ ls₂)).mismatched ∧
    (finalSummary pn ps idx (ls₁ ++ .malformed :: ls₂)).avroOnly =
      (finalSummary pn ps idx (ls₁ ++ ls₂)).avroOnly ∧
    (finalSummary pn ps idx (ls₁ ++ .malformed :: ls₂)).binlogOnly =
      (finalSummary pn ps idx (ls₁ ++ ls₂)).binlogOnly ∧
    CompareEvent.malformedWarning (ls₁.length + 1) ∈
      (compareAvroLoop pn ps idx (ls₁ ++ .malformed :: ls₂)).events := by
  obtain ⟨g1, g2, g3, g4⟩ := compareFold_core pn ps idx ls₂
    (compareStep pn ps idx
      (List.foldl (compareStep pn ps idx) ⟨0, 0, 0, 0, [], []⟩ ls₁)
      .malformed)
    (List.foldl (compareStep pn ps idx) ⟨0, 0, 0, 0, [], []⟩ ls₁)
    rfl rfl rfl rfl
  have hfoldL : compareAvroLoop pn ps idx (ls₁ ++ .malformed :: ls₂) =
      List.foldl (compareStep pn ps idx)
        (compareStep pn ps idx
          (List.foldl (compareStep pn ps idx) ⟨0, 0, 0, 0, [], []⟩ ls₁)
          .malformed) ls₂ := by
    unfold compareAvroLoop
    rw [List.foldl_append, List.foldl_cons]
  have hfoldR : compareAvroLoop pn ps idx (ls₁ ++ ls₂) =
      List.foldl (compareStep pn ps idx)
        (List.foldl (compareStep pn ps idx) ⟨0, 0, 0, 0, [], []⟩ ls₁) ls₂ := by
    unfold compareAvroLoop
    rw [List.foldl_append]
  have hln : (List.foldl (compareStep pn ps idx) ⟨0, 0, 0, 0, [], []⟩
      ls₁).lineNum = ls₁.length := by
    rw [compareFold_lineNum]
    show 0 + ls₁.length = ls₁.length
    omega
  unfold finalSummary
  dsimp only
  rw [hfoldL, hfoldR]
  refine ⟨?_, g1, g2, g3, ?_, ?_⟩
  · rw [compareFold_lineNum, compareStep_lineNum, hln]
  · rw [g4]
  · obtain ⟨tl, htl⟩ := compareFold_events pn ps idx ls₂
      (compareStep pn ps idx
        (List.foldl (compareStep pn ps idx) ⟨0, 0, 0, 0, [], []⟩ ls₁)
        .malformed)
    rw [htl]
    have hev : (compareStep pn ps idx
        (List.foldl (compareStep pn ps idx) ⟨0, 0, 0, 0, [], []⟩ ls₁)
        .malformed).events =
      (List.foldl (compareStep pn ps idx) ⟨0, 0, 0, 0, [], []⟩ ls₁).events ++
        [.malformedWarning (ls₁.length + 1)] := by
      rw [← hln]
      rfl
    rw [hev]
    simp

/-- **C7 counterexample**: a binlog line whose `event_type` is missing or
not a string is skipped (consumed, nothing indexed) with NO diagnostic —
the warning in the loader is commented out in the source — refuting the
claim that no skip is silent. -/
theorem missing_event_type_skipped_silently :
    (loadBinlogData [.missingEventType]).diags = [] ∧
    (loadBinlogData [.missingEventType]).binlogEvents = [] ∧
    (loadBinlogData [.missingEventType]).lineNum = 1 := by
  decide

/-- **C7** (corrected): every skip or degradation emits a visible
diagnostic — malformed binlog JSON lines, relevant events that fail struct
unmarshalling, relevant events missing `binlog_file`/`log_position`, and
the normalizer's `Date` and `Log position` parse failures (which degrade
to raw-string storage) — EXCEPT binlog lines whose `event_type` is missing
or not a string, which are skipped silently. -/
theorem skip_diagnostics (st : LoadState) :
    (loadStep st .malformed).diags =
      st.diags ++ [.malformedLine (st.lineNum + 1)] ∧
    (∀ et, isRelevantEventType et = true →
      (loadStep st (.unmarshalError et)).diags =
        st.diags ++ [.unmarshalErrorLine (st.lineNum + 1)]) ∧
    (∀ e, isRelevantEventType e.event_type = true →
      (e.binlog_file == "" || e.log_position == 0) = true →
      (loadStep st (.parsed e)).diags =
        st.diags ++ [.missingFileOrPos (st.lineNum + 1)]) ∧
    (loadStep st .missingEventType).diags = st.diags ∧
    (∀ v, parseGoDateTime v = none →
      processDate v = ((normalizedKey "Date", .str v), true)) ∧
    (∀ v, parseIntGo v = none →
      processLogPosition v = ((normalizedKey "Log position", .str v), true)) := by
  refine ⟨rfl, ?_, ?_, rfl, ?_, ?_⟩
  · intro et h
    simp only [loadStep]
    rw [if_pos h]
  · intro e h1 h2
    simp only [loadStep]
    rw [if_pos h1, if_pos h2]
  · intro v h
    unfold processDate
    rw [h]
  · intro v h
    unfold processLogPosition
    rw [h]

theorem skip_diagnostics_witness :
    (loadStep ⟨0, [], []⟩ (.unmarshalError "XID")).diags =
      [.unmarshalErrorLine 1] :=
  (skip_diagnostics ⟨0, [], []⟩).2.1 "XID" (by decide)

/-- **C8** (confirmed): the final verdict is the "consistent" conclusion
exactly when the mismatch counter, the Avro-only counter and the
binlog-only counter are all zero; otherwise the discrepancy conclusion is
printed. -/
theorem verdict_consistent_iff (pn ps : String → Option Int)
    (idx : List (BinlogKey × BinlogEvent)) (ls : List AvroLine) :
    (finalSummary pn ps idx ls).conclusion = consistentMsg ↔
      ((finalSummary pn ps idx ls).mismatched = 0 ∧
        (finalSummary pn ps idx ls).avroOnly = 0 ∧
        (finalSummary pn ps idx ls).binlogOnly = 0) := by
  unfold finalSummary
  dsimp only
  by_cases hb : ((compareAvroLoop pn ps idx ls).mismatches == 0 &&
      (compareAvroLoop pn ps idx ls).avroOnly == 0 &&
      countBinlogOnly idx
        (compareAvroLoop pn ps idx ls).binlogMatchedKeys == 0) = true
  · rw [if_pos hb]
    simp only [Bool.and_eq_true, beq_iff_eq] at hb
    simp [hb.1.1, hb.1.2, hb.2]
  · rw [if_neg hb]
    simp only [Bool.and_eq_true, beq_iff_eq] at hb
    constructor
    · intro h
      exact absurd h (by decide)
    · intro ⟨h1, h2, h3⟩
      exact absurd ⟨⟨h1, h2⟩, h3⟩ hb

/-- **C9** (confirmed): for any `Date` value the normalizer parses
successfully, formatting the parsed instant as ISO-8601 (the emitted
`timestamp` field) and parsing it back recovers the same instant to second
precision. -/
theorem date_roundtrip (s : String) (d : DateTime6)
    (h : parseGoDateTime s = some d) :
    parseRFC3339Z (formatRFC3339sec d) = some d := by
  obtain ⟨h1, h2⟩ := parseGoDateTime_bounds s d h
  exact parseRFC3339Z_format d h1 h2

theorem date_roundtrip_witness :
    parseRFC3339Z (formatRFC3339sec ⟨2024, 1, 2, 3, 4, 5⟩) =
      some ⟨2024, 1, 2, 3, 4, 5⟩ :=
  date_roundtrip "2024-01-02 03:04:05" ⟨2024, 1, 2, 3, 4, 5⟩ (by decide)

/-- **C10** (confirmed): an Avro record whose nested metadata carries
`binlog_position = 0` is treated exactly like one missing its join key:
skipped with a diagnostic, leaving the matched/mismatched/Avro-only
counters and the matched-key set untouched — it can never participate in
the reconciliation even if an indexed event could have matched. -/
theorem zero_position_record_excluded (pn ps : String → Option Int)
    (idx : List (BinlogKey × BinlogEvent)) (st : CompareState)
    (r : AvroRecord) (h : r.source_metadata.binlog_position.long = 0) :
    compareStep pn ps idx st (.parsed r) =
      { st with
        lineNum := st.lineNum + 1,
        events := st.events ++ [.skipMissingKeyWarning (st.lineNum + 1)] } := by
  simp only [compareStep]
  rw [if_pos (by simp [h])]

theorem zero_position_record_excluded_witness :
    compareStep (fun _ => none) (fun _ => none)
      [(⟨"bin.000001", 0⟩, { event_type := "WriteRowsEventV2" })]
      ⟨0, 0, 0, 0, [], []⟩
      (.parsed { source_metadata :=
        { binlog_file := { string := "bin.000001" },
          binlog_position := { long := 0 } } }) =
      ⟨1, 0, 0, 0, [], [.skipMissingKeyWarning 1]⟩ :=
  zero_position_record_excluded (fun _ => none) (fun _ => none)
    [(⟨"bin.000001", 0⟩, { event_type := "WriteRowsEventV2" })]
    ⟨0, 0, 0, 0, [], []⟩
    { source_metadata :=
      { binlog_file := { string := "bin.000001" },
        binlog_position := { long := 0 } } } rfl
